import Mathlib

/-!
Verification development for the BIG policy sales bot.

Shallow embedding of the sales-tracking core of the `big-policy-bot`
repository: the reset scheduler (`checkResets`), the period aggregator
(`addSale`, `getUserSalesStats`), and the sales-text recognizers
(`parseMultipleSales`), each translated from the JavaScript source.

The repository contains several variants of the bot.  The canonical
reset engine and aggregator follow the v4.7 variant (`src/unnamed/part_003`),
whose `lastReset` shape `{dailyTag, weeklyTag, monthlyTag}` is the one the
specification documents; the v4.2 variant (`src/index.js`) and the v5.x
variant (`src/unnamed/part_002`) are embedded separately with a `V42` / `V51`
suffix where a claim depends on them.
-/

namespace BigPolicyBot

/-! ## Calendar arithmetic

The JavaScript source derives civil fields from a `Date` shifted into
`America/Los_Angeles`.  A `PacificDate` stores those civil fields directly:
`year` as `getFullYear()`, `month` as the 0-based `getMonth()`, `day` as
`getDate()`.  Day-of-week and the ISO week number are computed from the
fields with standard day-count arithmetic, mirroring what the JS `Date`
methods return. -/

structure PacificDate where
  year : Int
  /-- Month, 0-based as JavaScript `getMonth()`. -/
  month : Nat
  /-- Day of month, 1-based as JavaScript `getDate()`. -/
  day : Nat
deriving DecidableEq, Repr

/-- Days since 1970-01-01 of the civil date `(y, m, d)` with `m` 1-based
(the civil-from-days algorithm used by every mainstream `Date`
implementation). -/

def daysFromCivil (y m d : Int) : Int :=
  let y := if m ≤ 2 then y - 1 else y
  let era := Int.fdiv y 400
  let yoe := y - era * 400
  let mp := if m > 2 then m - 3 else m + 9
  let doy := Int.fdiv (153 * mp + 2) 5 + d - 1
  let doe := yoe * 365 + Int.fdiv yoe 4 - Int.fdiv yoe 100 + doy
  era * 146097 + doe - 719468

/-- Civil year containing the day number `z` (days since 1970-01-01). -/

def yearFromDays (z : Int) : Int :=
  let z := z + 719468
  let era := Int.fdiv z 146097
  let doe := z - era * 146097
  let yoe := Int.fdiv (doe - Int.fdiv doe 1460 + Int.fdiv doe 36524 - Int.fdiv doe 146096) 365
  let y := yoe + era * 400
  let doy := doe - (365 * yoe + Int.fdiv yoe 4 - Int.fdiv yoe 100)
  let mp := Int.fdiv (5 * doy + 2) 153
  let m := if mp < 10 then mp + 3 else mp - 9
  if m ≤ 2 then y + 1 else y

def PacificDate.toDays (p : PacificDate) : Int :=
  daysFromCivil p.year (p.month + 1) p.day

/-- JavaScript `getDay()`: 0 = Sunday … 6 = Saturday.
1970-01-01 (day number 0) was a Thursday (= 4). -/

def PacificDate.getDay (p : PacificDate) : Int :=
  Int.emod (p.toDays + 4) 7

/-- Function `weekNumber` from `src/unnamed/part_003` (`function weekNumber(d)`):
shift the date to the Thursday of its ISO week, then count weeks from the
start of that Thursday's year. -/

def weekNumber (p : PacificDate) : Int :=
  let base := p.toDays
  let dow := Int.emod (base + 4) 7
  let shifted := base + (4 - (if dow = 0 then 7 else dow))
  let yearStart := daysFromCivil (yearFromDays shifted) 1 1
  Int.fdiv ((shifted - yearStart + 1) + 6) 7

/-- Zero-padded two-digit rendering of a `Nat`, as `String(n).padStart(2,'0')`. -/

def pad2 (n : Nat) : String :=
  if n < 10 then "0" ++ toString n else toString n

/-- Function `dayTag` from `part_003`: the civil date as `YYYY-MM-DD`
(`d.toISOString().slice(0,10)` of the Pacific-shifted date on a UTC host). -/

def dayTag (p : PacificDate) : String :=
  toString p.year ++ "-" ++ pad2 (p.month + 1) ++ "-" ++ pad2 p.day

/-- Function `weekTag` from `part_003`: `` `${d.getFullYear()}-W${weekNumber(d)}` ``. -/

def weekTag (p : PacificDate) : String :=
  toString p.year ++ "-W" ++ toString (weekNumber p)

/-- Function `monthTag` from `part_003`: `` `${d.getFullYear()}-${String(d.getMonth()+1).padStart(2,'0')}` ``. -/

def monthTag (p : PacificDate) : String :=
  toString p.year ++ "-" ++ pad2 (p.month + 1)

/-! ## Canonical data model (v4.7, `src/unnamed/part_003`) -/

/-- One agent's aggregate record: `{ username, total:0, count:0 }`. -/

structure Rec where
  username : String
  total : ℚ
  count : ℕ
deriving DecidableEq, Repr

/-- A period bucket: mapping from agent id to record.  A missing key of the
JS object is `none`. -/

def Bucket := String → Option Rec

def emptyBucket : Bucket := fun _ => none

/-- Shape `lastReset: { dailyTag: null, weeklyTag: null, monthlyTag: null }`. -/

structure LastReset where
  dailyTag : Option String
  weeklyTag : Option String
  monthlyTag : Option String
deriving DecidableEq, Repr

/-- The `salesData` document of the v4.7 variant. -/

structure SalesState where
  daily : Bucket
  weekly : Bucket
  monthly : Bucket
  allTime : Bucket
  lastReset : LastReset

def initialState : SalesState :=
  { daily := emptyBucket, weekly := emptyBucket, monthly := emptyBucket,
    allTime := emptyBucket,
    lastReset := { dailyTag := none, weeklyTag := none, monthlyTag := none } }

/-- Daily branch of `checkResets`:
`if(salesData.lastReset.dailyTag!==dTag){ salesData.daily={}; salesData.lastReset.dailyTag=dTag; }`. -/

def dailyStep (dTag : String) (s : SalesState) : SalesState :=
  if s.lastReset.dailyTag ≠ some dTag then
    { s with daily := emptyBucket,
             lastReset := { s.lastReset with dailyTag := some dTag } }
  else s

/-- Weekly branch of `checkResets`:
`if(salesData.lastReset.weeklyTag!==wTag && d.getDay()===1){ salesData.weekly={}; salesData.lastReset.weeklyTag=wTag; }`. -/

def weeklyStep (wTag : String) (dow : Int) (s : SalesState) : SalesState :=
  if s.lastReset.weeklyTag ≠ some wTag ∧ dow = 1 then
    { s with weekly := emptyBucket,
             lastReset := { s.lastReset with weeklyTag := some wTag } }
  else s

/-- Monthly branch of `checkResets`:
`if(salesData.lastReset.monthlyTag!==mTag && d.getDate()===1){ salesData.monthly={}; salesData.lastReset.monthlyTag=mTag; }`. -/

def monthlyStep (mTag : String) (dom : Nat) (s : SalesState) : SalesState :=
  if s.lastReset.monthlyTag ≠ some mTag ∧ dom = 1 then
    { s with monthly := emptyBucket,
             lastReset := { s.lastReset with monthlyTag := some mTag } }
  else s

/-- Function `checkResets` from `src/unnamed/part_003` (lines 70–78), with the wall
clock (`pacificNow()`) passed explicitly as the civil instant `d`.
The `saveData()` persistence call is I/O and outside the state model. -/

def checkResets (d : PacificDate) (s : SalesState) : SalesState :=
  monthlyStep (monthTag d) d.day
    (weeklyStep (weekTag d) d.getDay
      (dailyStep (dayTag d) s))

/-- Concrete weekly state for the Monday-gate scenario: the stored weekly tag
is from ISO week 10 of 2026 (the week of Monday 2026-03-02). -/

def wGateState : SalesState :=
  { daily := emptyBucket,
    weekly := fun u => if u = "u1" then some { username := "Alice", total := 100, count := 1 } else none,
    monthly := emptyBucket, allTime := emptyBucket,
    lastReset := { dailyTag := some "2026-03-08", weeklyTag := some "2026-W10",
                   monthlyTag := some "2026-03" } }

/-- Concrete monthly state for the day-1 gate: stored monthly tag `2026-03`
(March), stale relative to April 2026. -/

def mGateState : SalesState :=
  { daily := emptyBucket, weekly := emptyBucket,
    monthly := fun u => if u = "u1" then some { username := "Alice", total := 200, count := 2 } else none,
    allTime := emptyBucket,
    lastReset := { dailyTag := some "2026-03-31", weeklyTag := some "2026-W14",
                   monthlyTag := some "2026-03" } }

/-! ## v4.2 variant (`src/index.js`)

Records of the v4.2 aggregator carry a per-category count map and an
append-only per-sale log on the daily/weekly/monthly buckets; the `allTime`
records are created with only `username`, `total`, `count` (the JS object
simply lacks the other keys, modelled as `none`). -/

/-- One element of `policyDetails`: `{ amount, type, date }`. -/

structure DetailEntry where
  amount : ℚ
  type : String
  date : String
deriving DecidableEq, Repr

structure RecV42 where
  username : String
  total : ℚ
  count : ℕ
  /-- Field `policies`: category → count map; `none` when the JS record has no such key. -/
  policies : Option (String → ℕ)
  /-- Field `policyDetails`: append-only log; `none` when the JS record has no such key. -/
  policyDetails : Option (List DetailEntry)

def BucketV42 := String → Option RecV42

def emptyBucketV42 : BucketV42 := fun _ => none

/-- Shape `lastReset: { daily: toDateString, weekly: weekNumber, monthly: getMonth }`. -/

structure LastResetV42 where
  daily : String
  weekly : Int
  monthly : Int
deriving DecidableEq, Repr

structure SalesStateV42 where
  daily : BucketV42
  weekly : BucketV42
  monthly : BucketV42
  allTime : BucketV42
  dailySnapshot : BucketV42
  weeklySnapshot : BucketV42
  monthlySnapshot : BucketV42
  lastReset : LastResetV42

/-- Daily branch of the v4.2 `checkResets` (snapshot, clear, store tag).
`JSON.parse(JSON.stringify(x))` is a deep copy, i.e. the same value in the
pure model. -/

def dailyStepV42 (currentDay : String) (s : SalesStateV42) : SalesStateV42 :=
  if s.lastReset.daily ≠ currentDay then
    { s with dailySnapshot := s.daily, daily := emptyBucketV42,
             lastReset := { s.lastReset with daily := currentDay } }
  else s

def weeklyStepV42 (currentWeek : Int) (s : SalesStateV42) : SalesStateV42 :=
  if s.lastReset.weekly ≠ currentWeek then
    { s with weeklySnapshot := s.weekly, weekly := emptyBucketV42,
             lastReset := { s.lastReset with weekly := currentWeek } }
  else s

def monthlyStepV42 (currentMonth : Int) (s : SalesStateV42) : SalesStateV42 :=
  if s.lastReset.monthly ≠ currentMonth then
    { s with monthlySnapshot := s.monthly, monthly := emptyBucketV42,
             lastReset := { s.lastReset with monthly := currentMonth } }
  else s

/-- Function `checkResets` from `src/index.js` (lines 90–134).  The three comparands
computed from the Pacific wall clock — `pacificTime.toDateString()`,
`getWeekNumber(pacificTime)`, `pacificTime.getMonth()` — are passed as
inputs; there is no Monday or day-of-month gate in this variant. -/

def checkResetsV42 (currentDay : String) (currentWeek currentMonth : Int)
    (s : SalesStateV42) : SalesStateV42 :=
  monthlyStepV42 currentMonth (weeklyStepV42 currentWeek (dailyStepV42 currentDay s))

/-! ## v5.x variant (`src/unnamed/part_002`) -/

/-- Shape `lastReset` of the v5.x variant: legacy numeric fields plus composite
string tags (`''` initially). -/

structure LastResetV51 where
  daily : String
  weekly : Int
  weeklyTag : String
  monthly : Int
  monthlyTag : String
deriving DecidableEq, Repr

structure SalesStateV51 where
  daily : Bucket
  weekly : Bucket
  monthly : Bucket
  allTime : Bucket
  dailySnapshot : Bucket
  weeklySnapshot : Bucket
  monthlySnapshot : Bucket
  lastReset : LastResetV51

/-- Model of `String(n).padStart(2,'0')` for the 0-based month number of the v5.x
monthly tag. -/

def padStart2 (n : Int) : String :=
  let str := toString n
  if str.length < 2 then "0" ++ str else str

def dailyStepV51 (currentDay : String) (s : SalesStateV51) : SalesStateV51 :=
  if s.lastReset.daily ≠ currentDay then
    { s with dailySnapshot := s.daily, daily := emptyBucket,
             lastReset := { s.lastReset with daily := currentDay } }
  else s

/-- Weekly branch of the v5.x `checkResets`:
`if (!weeklyTag || weeklyTag !== lastWeekReset) { if (getDay() === 1) { … } }`. -/

def weeklyStepV51 (lastWeekReset : String) (currentWeek dow : Int)
    (s : SalesStateV51) : SalesStateV51 :=
  if (s.lastReset.weeklyTag = "" ∨ s.lastReset.weeklyTag ≠ lastWeekReset) ∧ dow = 1 then
    { s with weeklySnapshot := s.weekly, weekly := emptyBucket,
             lastReset := { s.lastReset with
                            weekly := currentWeek
                            weeklyTag := lastWeekReset } }
  else s

/-- Monthly branch of the v5.x `checkResets`: fires on any tag difference,
with **no** day-of-month gate. -/

def monthlyStepV51 (lastMonthReset : String) (currentMonth : Int)
    (s : SalesStateV51) : SalesStateV51 :=
  if s.lastReset.monthlyTag = "" ∨ s.lastReset.monthlyTag ≠ lastMonthReset then
    { s with monthlySnapshot := s.monthly, monthly := emptyBucket,
             lastReset := { s.lastReset with
                            monthly := currentMonth
                            monthlyTag := lastMonthReset } }
  else s

/-- Function `checkResets` from `src/unnamed/part_002` (lines 266–317), comparands
(`toDateString`, naive week number, `getMonth()`, `getFullYear()`,
`getDay()`) passed as inputs. -/

def checkResetsV51 (currentDay : String) (currentWeek currentMonth currentYear dow : Int)
    (s : SalesStateV51) : SalesStateV51 :=
  let lastWeekReset := toString currentYear ++ "-W" ++ toString currentWeek
  let lastMonthReset := toString currentYear ++ "-" ++ padStart2 currentMonth
  monthlyStepV51 lastMonthReset currentMonth
    (weeklyStepV51 lastWeekReset currentWeek dow
      (dailyStepV51 currentDay s))

/-! ## Canonical aggregator (v4.7, `src/unnamed/part_003`) -/

/-- The `bump` closure of `addSale`:
```
const cur = bucket[userId] || { username, total:0, count:0 };
if(username && username!==cur.username) cur.username=username;
cur.total += amount; cur.count += 1; bucket[userId]=cur;
```
The JS truthiness test `username && …` is `username ≠ ""` for a string. -/

def bump (userId username : String) (amount : ℚ) (b : Bucket) : Bucket :=
  let cur := (b userId).getD { username := username, total := 0, count := 0 }
  let cur := if username ≠ "" ∧ username ≠ cur.username then
    { cur with username := username } else cur
  fun u => if u = userId then
    some { cur with total := cur.total + amount, count := cur.count + 1 } else b u

/-- Function `addSale` from `src/unnamed/part_003` (lines 119–126): bumps all four
buckets; it does not itself call `checkResets` (a cron task does). -/

def addSale (userId username : String) (amount : ℚ) (s : SalesState) : SalesState :=
  { s with daily := bump userId username amount s.daily,
           weekly := bump userId username amount s.weekly,
           monthly := bump userId username amount s.monthly,
           allTime := bump userId username amount s.allTime }

/-- The four-record snapshot returned by `getUserSalesStats`. -/

structure UserStats where
  daily : Rec
  weekly : Rec
  monthly : Rec
  allTime : Rec
deriving DecidableEq, Repr

/-- The `pull` closure of `getUserSalesStats`: reads the record, defaulting a
missing one, and writes the (possibly default) record back into the bucket. -/

def pull (userId username : String) (b : Bucket) : Rec × Bucket :=
  let u := (b userId).getD { username := username, total := 0, count := 0 }
  (u, fun x => if x = userId then some u else b x)

/-- Function `getUserSalesStats` from `src/unnamed/part_003` (lines 157–163); returns
the stats and the (defensively initialized) state. -/

def getUserSalesStats (userId username : String) (s : SalesState) :
    UserStats × SalesState :=
  let d := pull userId username s.daily
  let w := pull userId username s.weekly
  let m := pull userId username s.monthly
  let a := pull userId username s.allTime
  (⟨d.1, w.1, m.1, a.1⟩,
   { s with daily := d.2, weekly := w.2, monthly := m.2, allTime := a.2 })

/-! ## Sales-text parsing: shared character utilities

The recognizers work on `List Char`.  JS regex character classes are ASCII
here: `\w = [A-Za-z0-9_]`, `\s` the usual whitespace characters. -/

def isWordChar (c : Char) : Bool := c.isAlphanum || c = '_'

def isSpaceChar (c : Char) : Bool :=
  c = ' ' || c = '\t' || c = '\n' || c = '\r' || c = '\x0b' || c = '\x0c'

/-- Class `[\d,]` of the v4.2/v5.x amount pattern. -/

def isAmtChar (c : Char) : Bool := c.isDigit || c = ','

/-- Class `[\d,.]` of the v4.7 amount patterns. -/

def isAmtDotChar (c : Char) : Bool := c.isDigit || c = ',' || c = '.'

def trimChars (cs : List Char) : List Char :=
  ((cs.dropWhile isSpaceChar).reverse.dropWhile isSpaceChar).reverse

def countWhile (p : Char → Bool) (cs : List Char) : ℕ := (cs.takeWhile p).length

def natOfDigits (cs : List Char) : ℕ :=
  cs.foldl (fun acc c => 10 * acc + (c.toNat - '0'.toNat)) 0

/-- JS `parseFloat` on the digit/dot strings the recognizers capture (commas
already removed, no sign): longest decimal prefix, `none` for NaN.  The exact
decimal value is kept unevaluated as `(mantissa, scale)`, i.e.
`mantissa / 10 ^ scale`, so concrete runs stay kernel-computable. -/

def parseFloatDec (cs : List Char) : Option (ℕ × ℕ) :=
  let intPart := cs.takeWhile Char.isDigit
  let rest := cs.drop intPart.length
  match rest with
  | '.' :: r2 =>
    let frac := r2.takeWhile Char.isDigit
    if intPart.isEmpty && frac.isEmpty then none
    else some (natOfDigits intPart * 10 ^ frac.length + natOfDigits frac, frac.length)
  | _ => if intPart.isEmpty then none else some (natOfDigits intPart, 0)

/-- Numeric value of a parsed decimal. -/

def amountVal (p : ℕ × ℕ) : ℚ := (p.1 : ℚ) / 10 ^ p.2

def isWordOpt : Option Char → Bool
  | none => false
  | some c => isWordChar c

/-- A regex `\b` holds between two positions iff exactly one side is a word
character (string ends count as non-word). -/

def boundaryAt (prev next : Option Char) : Bool := isWordOpt prev != isWordOpt next

def wordBoundaryBefore (prev : Option Char) : Bool := !(isWordOpt prev)

def wordBoundaryAfter : List Char → Bool
  | [] => true
  | c :: _ => !(isWordChar c)

/-- Case-insensitive prefix test. -/

def startsWithCI : List Char → List Char → Bool
  | [], _ => true
  | _ :: _, [] => false
  | p :: ps, c :: cs => (p.toLower = c.toLower) && startsWithCI ps cs

/-! ## The v5.x amount scanner (`src/unnamed/part_002`, lines 320–337)

Pattern: `/(?:\$\s*([\d,]+(?:\.\d{2})?))|([\d,]+(?:\.\d{2})?)\s*\$/g` run with
`matchAll`: leftmost scan, the two alternatives keyed by their first
character, greedy quantifiers, resume after each match. -/

structure AmtMatch where
  /-- Position `match.index`. -/
  start : ℕ
  /-- Length `match[0].length`. -/
  len : ℕ
  /-- The captured amount string (`match[1] || match[2]`). -/
  grp : List Char
deriving DecidableEq, Repr

/-- Leading-symbol branch `\$\s*([\d,]+(?:\.\d{2})?)` at the current
position. -/

def tryLeading (cs : List Char) : Option (ℕ × List Char) :=
  match cs with
  | '$' :: rest =>
    let spn := countWhile isSpaceChar rest
    let afterSp := rest.drop spn
    let digs := afterSp.takeWhile isAmtChar
    if digs.isEmpty then none
    else
      match afterSp.drop digs.length with
      | '.' :: a :: b :: _ =>
        if a.isDigit && b.isDigit then
          some (1 + spn + digs.length + 3, digs ++ ['.', a, b])
        else some (1 + spn + digs.length, digs)
      | _ => some (1 + spn + digs.length, digs)
  | _ => none

/-- Suffix `\s*\$` after the captured amount of the trailing-symbol branch;
`k` is the length already consumed. -/

def trySpDollar (k : ℕ) (g : List Char) (tail : List Char) : Option (ℕ × List Char) :=
  let spn := countWhile isSpaceChar tail
  match tail.drop spn with
  | '$' :: _ => some (k + spn + 1, g)
  | _ => none

/-- Trailing-symbol branch `([\d,]+(?:\.\d{2})?)\s*\$` at the current
position (greedy digits, the optional fraction backtracks if `\s*\$` fails
after it). -/

def tryTrailing (cs : List Char) : Option (ℕ × List Char) :=
  let digs := cs.takeWhile isAmtChar
  if digs.isEmpty then none
  else
    let after := cs.drop digs.length
    match after with
    | '.' :: a :: b :: rest =>
      if a.isDigit && b.isDigit then
        match trySpDollar (digs.length + 3) (digs ++ ['.', a, b]) rest with
        | some r => some r
        | none => trySpDollar digs.length digs after
      else trySpDollar digs.length digs after
    | _ => trySpDollar digs.length digs after

/-- The `matchAll` scan; `fuel` bounds the recursion by the remaining length. -/

def findAmtMatches : ℕ → List Char → ℕ → List AmtMatch
  | 0, _, _ => []
  | _ + 1, [], _ => []
  | fuel + 1, c :: rest, i =>
    match tryLeading (c :: rest) with
    | some (len, g) => ⟨i, len, g⟩ :: findAmtMatches fuel ((c :: rest).drop len) (i + len)
    | none =>
      match tryTrailing (c :: rest) with
      | some (len, g) => ⟨i, len, g⟩ :: findAmtMatches fuel ((c :: rest).drop len) (i + len)
      | none => findAmtMatches fuel rest (i + 1)

/-! ## The category-cleaning pipeline (identical in `src/index.js` 160–223 and
`src/unnamed/part_002` 337–387) -/

def roleLabels : List (List Char) :=
  ["His", "Hers", "Child", "Spouse", "Wife", "Husband", "Son", "Daughter",
   "Kid", "Parent", "Mother", "Father"].map String.toList

/-- Regex `/^(His|Hers|Child|…):/gi` — anchored at the start, so at most one label
is stripped. -/

def stripRoleLabel (cs : List Char) : List Char :=
  match roleLabels.findSome? (fun l =>
    if startsWithCI (l ++ [':']) cs then some (cs.drop (l.length + 1)) else none) with
  | some r => r
  | none => cs

/-- Regex `/:[a-zA-Z0-9_]+:/g` → `''` (Discord custom emoji). -/

def stripCustomEmojiGo : ℕ → List Char → List Char
  | 0, cs => cs
  | _ + 1, [] => []
  | fuel + 1, ':' :: rest =>
    let run := rest.takeWhile (fun c => c.isAlphanum || c = '_')
    if run.isEmpty then ':' :: stripCustomEmojiGo fuel rest
    else
      match rest.drop run.length with
      | ':' :: rest2 => stripCustomEmojiGo fuel rest2
      | _ => ':' :: stripCustomEmojiGo fuel rest
  | fuel + 1, c :: rest => c :: stripCustomEmojiGo fuel rest

def stripCustomEmoji (cs : List Char) : List Char := stripCustomEmojiGo cs.length cs

/-- The Unicode-emoji removal regex: every alternative is a one-code-point
class, so the global replace is a character filter. -/

def isEmojiRangeChar (c : Char) : Bool :=
  let n := c.toNat
  (0x1F000 ≤ n && n ≤ 0x1F9FF) || (0x2600 ≤ n && n ≤ 0x26FF) ||
  (0x2700 ≤ n && n ≤ 0x27BF) || (0x1F900 ≤ n && n ≤ 0x1F9FF) ||
  (0x1F600 ≤ n && n ≤ 0x1F64F) || (0x1F680 ≤ n && n ≤ 0x1F6FF) ||
  (0x1F1E0 ≤ n && n ≤ 0x1F1FF) || (0xFE00 ≤ n && n ≤ 0xFE0F) ||
  (0x1F300 ≤ n && n ≤ 0x1F5FF) || (0x2000 ≤ n && n ≤ 0x3300)

def stripUnicodeEmoji (cs : List Char) : List Char :=
  cs.filter (fun c => !(isEmojiRangeChar c))

/-- Regex `/@[^\s]+/g` → `''` (mentions). -/

def stripMentionsGo : ℕ → List Char → List Char
  | 0, cs => cs
  | _ + 1, [] => []
  | fuel + 1, '@' :: rest =>
    let run := rest.takeWhile (fun c => !(isSpaceChar c))
    if run.isEmpty then '@' :: stripMentionsGo fuel rest
    else stripMentionsGo fuel (rest.drop run.length)
  | fuel + 1, c :: rest => c :: stripMentionsGo fuel rest

def stripMentions (cs : List Char) : List Char := stripMentionsGo cs.length cs

/-- Does `(w\/|with)\b` match at the head of `cs`?  (The `\b` before the
token is the caller's responsibility.)  Note `\b` after `w/` needs a word
character right after the slash. -/

def withTokenHere (cs : List Char) : Bool :=
  (match cs with
   | c1 :: '/' :: c :: _ => (c1 = 'w' || c1 = 'W') && isWordChar c
   | _ => false) ||
  (match cs with
   | c1 :: c2 :: c3 :: c4 :: rest =>
     (c1.toLower = 'w') && (c2.toLower = 'i') && (c3.toLower = 't') &&
     (c4.toLower = 'h') && wordBoundaryAfter rest
   | _ => false)

/-- Regex `/\b(w\/|with)\b.*/gi` → `''`: truncate at the first boundary-matched
`w/` or `with`. -/

def truncAtWithGo : Option Char → List Char → List Char
  | _, [] => []
  | prev, c :: rest =>
    if wordBoundaryBefore prev && withTokenHere (c :: rest) then []
    else c :: truncAtWithGo (some c) rest

def truncAtWith (cs : List Char) : List Char := truncAtWithGo none cs

/-- The `indexOf('#')` truncation: keep everything before the first `#`. -/

def truncAtHash (cs : List Char) : List Char := cs.takeWhile (fun c => c != '#')

/-- Regex `/[^\w\s-]/g` → `' '`. -/

def replaceSpecials (cs : List Char) : List Char :=
  cs.map (fun c => if isWordChar c || isSpaceChar c || c = '-' then c else ' ')

/-- Regex `/\s+/g` → `' '`. -/

def collapseSpacesGo : Bool → List Char → List Char
  | _, [] => []
  | prevSp, c :: rest =>
    if isSpaceChar c then
      if prevSp then collapseSpacesGo true rest
      else ' ' :: collapseSpacesGo true rest
    else c :: collapseSpacesGo false rest

def collapseSpaces (cs : List Char) : List Char := collapseSpacesGo false cs

/-- The closed keyword list, in source order. -/

def policyPatterns : List String :=
  ["NLG", "TLE", "IUL", "IULE", "UL", "WL", "TERM", "Americo", "MOO", "Ladder",
   "Term Life", "Universal Life", "Whole Life", "Final Expense",
   "Index Universal Life", "Variable Universal Life"]

/-- Test `new RegExp(`\\b${pattern}\\b`, 'i').test(text)`. -/

def testWholeWord (pat : List Char) : Option Char → List Char → Bool
  | _, [] => false
  | prev, c :: rest =>
    (wordBoundaryBefore prev && startsWithCI pat (c :: rest) &&
      wordBoundaryAfter ((c :: rest).drop pat.length)) ||
    testWholeWord pat (some c) rest

/-- The greedy `(\s+\w+)?` suffix group of the extraction regex. -/

def extractSuffix (cs : List Char) : List Char :=
  let sp := cs.takeWhile isSpaceChar
  let w := (cs.drop sp.length).takeWhile isWordChar
  if sp.isEmpty || w.isEmpty then [] else sp ++ w

/-- One position of `(\w+\s+)?\bP\b(\s+\w+)?`: the optional prefix group is
preferred (greedy `?`); inside it `\w+` is the maximal word run and `\s+` the
maximal space run (shorter splits cannot succeed since the classes are
disjoint). -/

def tryExtractHere (pat : List Char) (prev : Option Char) (cs : List Char) :
    Option (List Char) :=
  let w := cs.takeWhile isWordChar
  let afterW := cs.drop w.length
  let sp := afterW.takeWhile isSpaceChar
  let afterSp := afterW.drop sp.length
  if !w.isEmpty && !sp.isEmpty && startsWithCI pat afterSp &&
      wordBoundaryAfter (afterSp.drop pat.length) then
    some (w ++ sp ++ afterSp.take pat.length ++ extractSuffix (afterSp.drop pat.length))
  else if wordBoundaryBefore prev && startsWithCI pat cs &&
      wordBoundaryAfter (cs.drop pat.length) then
    some (cs.take pat.length ++ extractSuffix (cs.drop pat.length))
  else none

/-- First match of the extraction regex, scanning start positions left to
right. -/

def extractGo (pat : List Char) : ℕ → Option Char → List Char → Option (List Char)
  | 0, _, _ => none
  | _ + 1, _, [] => none
  | fuel + 1, prev, c :: rest =>
    match tryExtractHere pat prev (c :: rest) with
    | some r => some r
    | none => extractGo pat fuel (some c) rest

/-- The keyword loop: first pattern whose `\bP\b` test succeeds yields
`policyText.match(extractRegex)[0].trim()`. -/

def findPolicyKeyword (t : List Char) : Option (List Char) :=
  policyPatterns.findSome? (fun pat =>
    if testWholeWord pat.toList none t then
      (extractGo pat.toList t.length none t).map trimChars
    else none)

/-- JS `split(' ')` (single-space separator, empty pieces kept). -/

def splitOnSpace : List Char → List (List Char)
  | [] => [[]]
  | ' ' :: rest => [] :: splitOnSpace rest
  | c :: rest =>
    match splitOnSpace rest with
    | w :: ws => (c :: w) :: ws
    | [] => [[c]]

/-- JS `join(' ')`. -/

def joinWords : List (List Char) → List Char
  | [] => []
  | [w] => w
  | w :: ws => w ++ ' ' :: joinWords ws

/-- Model of `word.charAt(0).toUpperCase() + word.slice(1).toLowerCase()`. -/

def titleCaseWord : List Char → List Char
  | [] => []
  | c :: rest => c.toUpper :: rest.map Char.toLower

def titleCase (cs : List Char) : List Char :=
  joinWords ((splitOnSpace cs).map titleCaseWord)

/-- The per-amount category pipeline of `parseMultipleSales` (cleaning steps,
keyword extraction, three-word cap, `General Policy` default, title case). -/

def cleanPolicyText (policyText0 : List Char) : List Char :=
  let t := trimChars (stripRoleLabel policyText0)
  let t := trimChars (stripCustomEmoji t)
  let t := trimChars (stripUnicodeEmoji t)
  let t := trimChars (stripMentions t)
  let t := trimChars (truncAtWith t)
  let t := trimChars (truncAtHash t)
  let t := replaceSpecials t
  let t := trimChars (collapseSpaces t)
  let found := (findPolicyKeyword t).getD []
  let policyType := if found.isEmpty then t else found
  let ws := (splitOnSpace policyType).filter (fun w => w.length > 0)
  let policyType := if ws.length > 3 then joinWords (ws.take 3) else policyType
  let policyType := if policyType.length < 2 then "General Policy".toList else policyType
  titleCase policyType

/-- A parsed sale of the v4.2/v5.x parser.  `amount` is the `parseFloat`
result: `none` = NaN, `some (m, e)` = the exact decimal `m / 10 ^ e`. -/

structure SaleEntry where
  amount : Option (ℕ × ℕ)
  policyType : String
deriving DecidableEq, Repr

/-- Segmentation: each amount owns the text up to the start of the next
match (or end of message). -/

def buildEntries (full : List Char) : List AmtMatch → List SaleEntry
  | [] => []
  | m :: rest =>
    let endPos := match rest with
      | m2 :: _ => m2.start
      | [] => full.length
    let startPos := m.start + m.len
    let policyText := trimChars ((full.drop startPos).take (endPos - startPos))
    { amount := parseFloatDec (m.grp.filter (fun c => c != ',')),
      policyType := (cleanPolicyText policyText).asString } :: buildEntries full rest

/-- Model of `message.replace(/\n/g, ' ')`. -/

def normalizeMsg (message : String) : List Char :=
  message.toList.map (fun c => if c = '\n' then ' ' else c)

/-- Function `parseMultipleSales` from `src/unnamed/part_002` (lines 320–401): newline
normalization, `matchAll` over the two surface forms, positional
segmentation, category cleaning.  One entry per match — no de-duplication by
amount value. -/

def parseMultipleSales (message : String) : List SaleEntry :=
  let fullMessage := normalizeMsg message
  let ms := findAmtMatches fullMessage.length fullMessage 0
  if ms.isEmpty then [] else buildEntries fullMessage ms

/-! ## The v4.7 parser (`src/unnamed/part_003`, lines 86–117)

Three independent regex passes (labelled His/Hers blocks, leading `$`,
trailing `$`), an `amount > 0` filter per match, then a de-dup pass keyed by
`amount.toFixed(2)` — i.e. by numeric value, not by match position. -/

/-- Backtracking of a greedy `[\d,.]+` against a trailing `\b`: shrink the
run from the right until the boundary holds (the given-back character becomes
the following character). -/

def shrinkRev : List Char → Option Char → List Char
  | [], _ => []
  | c :: rest, next =>
    if isWordChar c != isWordOpt next then c :: rest else shrinkRev rest (some c)

def shrinkForBoundary (run after : List Char) : List Char :=
  (shrinkRev run.reverse after.head?).reverse

/-- Tail of `\b(?:his|hers)\s*:\s*\$?([\d,.]+)\b` after the keyword of length
`klen` matched: spaces, colon, spaces, optional dollar, the captured run,
trailing boundary. -/

def tryHisHersTail (klen : ℕ) (cs : List Char) : Option (ℕ × List Char) :=
  let rest := cs.drop klen
  let sp1 := countWhile isSpaceChar rest
  match rest.drop sp1 with
  | ':' :: rest2 =>
    let sp2 := countWhile isSpaceChar rest2
    let rest3 := rest2.drop sp2
    let dollarSplit : ℕ × List Char :=
      match rest3 with
      | '$' :: r => (1, r)
      | _ => (0, rest3)
    let run := dollarSplit.2.takeWhile isAmtDotChar
    let run2 := shrinkForBoundary run (dollarSplit.2.drop run.length)
    if run2.isEmpty then none
    else some (klen + sp1 + 1 + sp2 + dollarSplit.1 + run2.length, run2)
  | _ => none

def tryHisHers (prev : Option Char) (cs : List Char) : Option (ℕ × List Char) :=
  if wordBoundaryBefore prev then
    if startsWithCI "his".toList cs then tryHisHersTail 3 cs
    else if startsWithCI "hers".toList cs then tryHisHersTail 4 cs
    else none
  else none

def findHisHers : ℕ → Option Char → List Char → List (List Char)
  | 0, _, _ => []
  | _ + 1, _, [] => []
  | fuel + 1, prev, c :: rest =>
    match tryHisHers prev (c :: rest) with
    | some (len, g) => g :: findHisHers fuel g.getLast? ((c :: rest).drop len)
    | none => findHisHers fuel (some c) rest

/-- Pattern `\$\s*([\d,.]+)` at the current position. -/

def tryAnyDollar (cs : List Char) : Option (ℕ × List Char) :=
  match cs with
  | '$' :: rest =>
    let spn := countWhile isSpaceChar rest
    let run := (rest.drop spn).takeWhile isAmtDotChar
    if run.isEmpty then none else some (1 + spn + run.length, run)
  | _ => none

def findAnyDollar : ℕ → List Char → List (List Char)
  | 0, _ => []
  | _ + 1, [] => []
  | fuel + 1, c :: rest =>
    match tryAnyDollar (c :: rest) with
    | some (len, g) => g :: findAnyDollar fuel ((c :: rest).drop len)
    | none => findAnyDollar fuel rest

/-- Pattern `\b([\d,.]+)\s*\$` at the current position: the leading `\b` compares the
previous character with the first run character. -/

def tryTrailingV47 (prev : Option Char) (cs : List Char) : Option (ℕ × List Char) :=
  match cs with
  | c :: _ =>
    if isAmtDotChar c && boundaryAt prev (some c) then
      let run := cs.takeWhile isAmtDotChar
      let after := cs.drop run.length
      let spn := countWhile isSpaceChar after
      match after.drop spn with
      | '$' :: _ => some (run.length + spn + 1, run)
      | _ => none
    else none
  | [] => none

def findTrailingV47 : ℕ → Option Char → List Char → List (List Char)
  | 0, _, _ => []
  | _ + 1, _, [] => []
  | fuel + 1, prev, c :: rest =>
    match tryTrailingV47 prev (c :: rest) with
    | some (len, g) => g :: findTrailingV47 fuel (some '$') ((c :: rest).drop len)
    | none => findTrailingV47 fuel (some c) rest

structure SaleV47 where
  /-- The parsed amount as the exact decimal `(mantissa, scale)`. -/
  amount : ℕ × ℕ
  type : String
deriving DecidableEq, Repr

/-- Model of `const amount = parseFloat(g.replace(/,/g,'')); if(amount>0) out.push({amount, type:'AP'})`.
`parseFloat` yields a non-negative decimal or NaN here, so `amount > 0` is
exactly "the mantissa is positive". -/

def saleV47OfGroup (g : List Char) : Option SaleV47 :=
  match parseFloatDec (g.filter (fun c => c != ',')) with
  | some p => if 0 < p.1 then some { amount := p, type := "AP" } else none
  | none => none

/-- The `toFixed(2)` keying of the de-dup set: two amounts collide iff they agree
rounded (half-up) to cents, computed exactly on naturals:
`round(m / 10^e * 100) = (2*(m*100) + 10^e) / (2 * 10^e)`. -/

def toFixed2Key (p : ℕ × ℕ) : ℕ := (2 * (p.1 * 100) + 10 ^ p.2) / (2 * 10 ^ p.2)

/-- The `seen`-set de-dup loop: keeps the first occurrence of each key. -/

def dedupByKey : List ℕ → List SaleV47 → List SaleV47
  | _, [] => []
  | seen, s :: rest =>
    if seen.contains (toFixed2Key s.amount) then dedupByKey seen rest
    else s :: dedupByKey (toFixed2Key s.amount :: seen) rest

/-- Function `parseMultipleSales` from `src/unnamed/part_003` (lines 86–117). -/

def parseMultipleSalesV47 (text : String) : List SaleV47 :=
  let t := trimChars (collapseSpaces text.toList)
  let gs := findHisHers t.length none t ++ findAnyDollar t.length t ++
    findTrailingV47 t.length none t
  let out := gs.filterMap saleV47OfGroup
  if out.length > 1 then dedupByKey [] out else out

/-- Per-bucket part of `addSale` from `src/unnamed/part_002` (lines 404–428):
create-if-missing with the current username (never updated afterwards), then
`total += amount; count += 1`. -/

def bumpV51 (userId username : String) (amount : ℚ) (b : Bucket) : Bucket :=
  let b1 : Bucket :=
    match b userId with
    | some _ => b
    | none => fun u => if u = userId then
        some { username := username, total := 0, count := 0 } else b u
  fun u => if u = userId then
    (b1 u).map (fun r => { r with total := r.total + amount, count := r.count + 1 })
  else b1 u

def addSaleV51 (userId username : String) (amount : ℚ) (s : SalesStateV51) : SalesStateV51 :=
  { s with daily := bumpV51 userId username amount s.daily,
           weekly := bumpV51 userId username amount s.weekly,
           monthly := bumpV51 userId username amount s.monthly,
           allTime := bumpV51 userId username amount s.allTime }

/-- The sales loop of the v5.x `messageCreate` handler:
`for (const sale of sales) { if (sale.amount > 0) { addSale(...) } }` —
a NaN amount compares false. -/

def processSales (userId username : String) (sales : List SaleEntry)
    (s : SalesStateV51) : SalesStateV51 :=
  sales.foldl (fun st sale =>
    match sale.amount with
    | some p => if 0 < amountVal p then addSaleV51 userId username (amountVal p) st else st
    | none => st) s

def initialStateV51 : SalesStateV51 :=
  { daily := emptyBucket, weekly := emptyBucket, monthly := emptyBucket,
    allTime := emptyBucket, dailySnapshot := emptyBucket,
    weeklySnapshot := emptyBucket, monthlySnapshot := emptyBucket,
    lastReset := { daily := "", weekly := 0, weeklyTag := "", monthly := 0,
                   monthlyTag := "" } }

/-! ## C8: display-name updates in the canonical aggregator -/

/-- A concrete state holding one sale recorded under the name `Alice`. -/

def c8State : SalesState := addSale "u1" "Alice" 100 initialState

/-! ## C10: the v4.2 `addSale` and the reduced `allTime` shape -/

/-- Per-period part of `addSale` from `src/index.js` (lines 243–267), for the
daily/weekly/monthly buckets: create-if-missing with an empty category map
and an empty detail log, add the amount, bump the count, bump the
per-category count (`if (!policies[pt]) policies[pt] = 0; policies[pt]++`,
modelled as a total map defaulting to 0), append `{amount, type, date}`.
`ts` stands for `new Date().toISOString()`. -/

def bumpDetailedV42 (userId username : String) (amount : ℚ) (policyType ts : String)
    (b : BucketV42) : BucketV42 :=
  let r0 := (b userId).getD
    { username := username, total := 0, count := 0,
      policies := some (fun _ => 0), policyDetails := some [] }
  let pol := r0.policies.getD (fun _ => 0)
  let r := { r0 with
    total := r0.total + amount,
    count := r0.count + 1,
    policies := some (fun c => if c = policyType then pol c + 1 else pol c),
    policyDetails := some (r0.policyDetails.getD [] ++
      [{ amount := amount, type := policyType, date := ts }]) }
  fun u => if u = userId then some r else b u

/-- The `allTime` part of the v4.2 `addSale` (lines 269–282): create-if-missing
with **only** `username`, `total`, `count` (no category map, no detail log),
then add the amount and bump the count. -/

def bumpAllTimeV42 (userId username : String) (amount : ℚ) (b : BucketV42) : BucketV42 :=
  let a0 := (b userId).getD
    { username := username, total := 0, count := 0, policies := none, policyDetails := none }
  fun u => if u = userId then
    some { a0 with total := a0.total + amount, count := a0.count + 1 } else b u

/-- Function `addSale` from `src/index.js` (lines 240–285): `checkResets()` first, then
the three detailed bumps, then the reduced `allTime` bump. -/

def addSaleV42 (currentDay : String) (currentWeek currentMonth : Int)
    (userId username : String) (amount : ℚ) (policyType ts : String)
    (s : SalesStateV42) : SalesStateV42 :=
  let s1 := checkResetsV42 currentDay currentWeek currentMonth s
  { s1 with daily := bumpDetailedV42 userId username amount policyType ts s1.daily,
            weekly := bumpDetailedV42 userId username amount policyType ts s1.weekly,
            monthly := bumpDetailedV42 userId username amount policyType ts s1.monthly,
            allTime := bumpAllTimeV42 userId username amount s1.allTime }

/-- The reduced-shape invariant of the `allTime` bucket: no record ever
carries a category map or a per-sale log. -/

def AllTimeReducedV42 (s : SalesStateV42) : Prop :=
  ∀ u r, s.allTime u = some r → r.policies = none ∧ r.policyDetails = none

def initialStateV42 : SalesStateV42 :=
  { daily := emptyBucketV42, weekly := emptyBucketV42, monthly := emptyBucketV42,
    allTime := emptyBucketV42, dailySnapshot := emptyBucketV42,
    weeklySnapshot := emptyBucketV42, monthlySnapshot := emptyBucketV42,
    lastReset := { daily := "Thu Oct 01 2026", weekly := 40, monthly := 9 } }

/-! ## Theorems -/

/-! ### Frame and post-state lemmas for the reset steps -/

@[simp] theorem dailyStep_weekly (t : String) (s : SalesState) :
    (dailyStep t s).weekly = s.weekly := by
  unfold dailyStep; split <;> rfl

@[simp] theorem dailyStep_monthly (t : String) (s : SalesState) :
    (dailyStep t s).monthly = s.monthly := by
  unfold dailyStep; split <;> rfl

@[simp] theorem dailyStep_allTime (t : String) (s : SalesState) :
    (dailyStep t s).allTime = s.allTime := by
  unfold dailyStep; split <;> rfl

@[simp] theorem dailyStep_weeklyTag (t : String) (s : SalesState) :
    (dailyStep t s).lastReset.weeklyTag = s.lastReset.weeklyTag := by
  unfold dailyStep; split <;> rfl

@[simp] theorem dailyStep_monthlyTag (t : String) (s : SalesState) :
    (dailyStep t s).lastReset.monthlyTag = s.lastReset.monthlyTag := by
  unfold dailyStep; split <;> rfl

@[simp] theorem weeklyStep_daily (t : String) (dow : Int) (s : SalesState) :
    (weeklyStep t dow s).daily = s.daily := by
  unfold weeklyStep; split <;> rfl

@[simp] theorem weeklyStep_monthly (t : String) (dow : Int) (s : SalesState) :
    (weeklyStep t dow s).monthly = s.monthly := by
  unfold weeklyStep; split <;> rfl

@[simp] theorem weeklyStep_allTime (t : String) (dow : Int) (s : SalesState) :
    (weeklyStep t dow s).allTime = s.allTime := by
  unfold weeklyStep; split <;> rfl

@[simp] theorem weeklyStep_dailyTag (t : String) (dow : Int) (s : SalesState) :
    (weeklyStep t dow s).lastReset.dailyTag = s.lastReset.dailyTag := by
  unfold weeklyStep; split <;> rfl

@[simp] theorem weeklyStep_monthlyTag (t : String) (dow : Int) (s : SalesState) :
    (weeklyStep t dow s).lastReset.monthlyTag = s.lastReset.monthlyTag := by
  unfold weeklyStep; split <;> rfl

@[simp] theorem monthlyStep_daily (t : String) (dom : Nat) (s : SalesState) :
    (monthlyStep t dom s).daily = s.daily := by
  unfold monthlyStep; split <;> rfl

@[simp] theorem monthlyStep_weekly (t : String) (dom : Nat) (s : SalesState) :
    (monthlyStep t dom s).weekly = s.weekly := by
  unfold monthlyStep; split <;> rfl

@[simp] theorem monthlyStep_allTime (t : String) (dom : Nat) (s : SalesState) :
    (monthlyStep t dom s).allTime = s.allTime := by
  unfold monthlyStep; split <;> rfl

@[simp] theorem monthlyStep_dailyTag (t : String) (dom : Nat) (s : SalesState) :
    (monthlyStep t dom s).lastReset.dailyTag = s.lastReset.dailyTag := by
  unfold monthlyStep; split <;> rfl

@[simp] theorem monthlyStep_weeklyTag (t : String) (dom : Nat) (s : SalesState) :
    (monthlyStep t dom s).lastReset.weeklyTag = s.lastReset.weeklyTag := by
  unfold monthlyStep; split <;> rfl

theorem dailyStep_dailyTag (t : String) (s : SalesState) :
    (dailyStep t s).lastReset.dailyTag = some t := by
  unfold dailyStep; split
  · rfl
  · next h => exact not_not.mp h

theorem weeklyStep_not_cond (t : String) (dow : Int) (s : SalesState) :
    ¬((weeklyStep t dow s).lastReset.weeklyTag ≠ some t ∧ dow = 1) := by
  unfold weeklyStep; split
  · next h => simp
  · next h => exact h

theorem monthlyStep_not_cond (t : String) (dom : Nat) (s : SalesState) :
    ¬((monthlyStep t dom s).lastReset.monthlyTag ≠ some t ∧ dom = 1) := by
  unfold monthlyStep; split
  · next h => simp
  · next h => exact h

theorem dailyStep_of_eq (t : String) (s : SalesState)
    (h : s.lastReset.dailyTag = some t) : dailyStep t s = s := by
  unfold dailyStep
  rw [if_neg (by simpa using h)]

theorem weeklyStep_of_not_cond (t : String) (dow : Int) (s : SalesState)
    (h : ¬(s.lastReset.weeklyTag ≠ some t ∧ dow = 1)) : weeklyStep t dow s = s := by
  unfold weeklyStep
  rw [if_neg h]

theorem monthlyStep_of_not_cond (t : String) (dom : Nat) (s : SalesState)
    (h : ¬(s.lastReset.monthlyTag ≠ some t ∧ dom = 1)) : monthlyStep t dom s = s := by
  unfold monthlyStep
  rw [if_neg h]

/-- After `checkResets`, the daily tag always equals the current day tag, and
neither the weekly nor the monthly transition condition still holds. -/

theorem checkResets_post (d : PacificDate) (s : SalesState) :
    (checkResets d s).lastReset.dailyTag = some (dayTag d) ∧
    ¬((checkResets d s).lastReset.weeklyTag ≠ some (weekTag d) ∧ d.getDay = 1) ∧
    ¬((checkResets d s).lastReset.monthlyTag ≠ some (monthTag d) ∧ (d.day : Nat) = 1) := by
  unfold checkResets
  refine ⟨?_, ?_, ?_⟩
  · rw [monthlyStep_dailyTag, weeklyStep_dailyTag, dailyStep_dailyTag]
  · rw [monthlyStep_weeklyTag]
    exact weeklyStep_not_cond _ _ _
  · exact monthlyStep_not_cond _ _ _

/-- Calling `checkResets` twice at the same instant changes nothing the
second time (tag comparison is idempotent). -/

theorem checkResets_idem (d : PacificDate) (s : SalesState) :
    checkResets d (checkResets d s) = checkResets d s := by
  obtain ⟨h1, h2, h3⟩ := checkResets_post d s
  conv_lhs => rw [checkResets]
  rw [dailyStep_of_eq _ _ h1, weeklyStep_of_not_cond _ _ _ h2,
    monthlyStep_of_not_cond _ _ _ h3]

/-- Function `checkResets` never touches the `allTime` bucket. -/

theorem checkResets_allTime (d : PacificDate) (s : SalesState) :
    (checkResets d s).allTime = s.allTime := by
  unfold checkResets
  rw [monthlyStep_allTime, weeklyStep_allTime, dailyStep_allTime]

theorem weeklyStep_fired (t : String) (dow : Int) (s : SalesState)
    (h : s.lastReset.weeklyTag ≠ some t ∧ dow = 1) :
    (weeklyStep t dow s).weekly = emptyBucket ∧
    (weeklyStep t dow s).lastReset.weeklyTag = some t := by
  unfold weeklyStep
  rw [if_pos h]
  exact ⟨rfl, rfl⟩

theorem monthlyStep_fired (t : String) (dom : Nat) (s : SalesState)
    (h : s.lastReset.monthlyTag ≠ some t ∧ dom = 1) :
    (monthlyStep t dom s).monthly = emptyBucket ∧
    (monthlyStep t dom s).lastReset.monthlyTag = some t := by
  unfold monthlyStep
  rw [if_pos h]
  exact ⟨rfl, rfl⟩

/-- Claim C1: If the stored weekly tag differs from the current week tag but the
Pacific civil day-of-week is not Monday, `checkResets` leaves the weekly
bucket and the stored weekly tag unchanged; at a Monday with a differing
stored tag it clears the weekly bucket and stores the current tag, and an
immediately repeated call changes nothing. -/

theorem checkResets_weekly_monday_gate (d : PacificDate) (s : SalesState)
    (hdiff : s.lastReset.weeklyTag ≠ some (weekTag d)) :
    (d.getDay ≠ 1 →
      (checkResets d s).weekly = s.weekly ∧
      (checkResets d s).lastReset.weeklyTag = s.lastReset.weeklyTag) ∧
    (d.getDay = 1 →
      (checkResets d s).weekly = emptyBucket ∧
      (checkResets d s).lastReset.weeklyTag = some (weekTag d) ∧
      checkResets d (checkResets d s) = checkResets d s) := by
  constructor
  · intro hnot
    unfold checkResets
    rw [monthlyStep_weekly, monthlyStep_weeklyTag,
      weeklyStep_of_not_cond _ _ _ (fun hc => hnot hc.2),
      dailyStep_weekly, dailyStep_weeklyTag]
    exact ⟨rfl, rfl⟩
  · intro hmon
    have hcond : (dailyStep (dayTag d) s).lastReset.weeklyTag ≠ some (weekTag d) ∧
        d.getDay = 1 := by
      rw [dailyStep_weeklyTag]
      exact ⟨hdiff, hmon⟩
    refine ⟨?_, ?_, checkResets_idem d s⟩
    · unfold checkResets
      rw [monthlyStep_weekly]
      exact (weeklyStep_fired _ _ _ hcond).1
    · unfold checkResets
      rw [monthlyStep_weeklyTag]
      exact (weeklyStep_fired _ _ _ hcond).2

/-- Witness for C1: Thursday 2026-03-12 is in ISO week 11 (tag differs from the
stale `2026-W10`) but is not a Monday, so the weekly bucket survives; Monday
2026-03-16 clears it and stores the current tag. -/

theorem checkResets_weekly_monday_gate_witness :
    (checkResets ⟨2026, 2, 12⟩ wGateState).weekly "u1" =
      some { username := "Alice", total := 100, count := 1 } ∧
    (checkResets ⟨2026, 2, 16⟩ wGateState).weekly "u1" = none ∧
    (checkResets ⟨2026, 2, 16⟩ wGateState).lastReset.weeklyTag = some "2026-W12" := by
  have hThu := (checkResets_weekly_monday_gate ⟨2026, 2, 12⟩ wGateState (by decide)).1 (by decide)
  have hMon := (checkResets_weekly_monday_gate ⟨2026, 2, 16⟩ wGateState (by decide)).2 (by decide)
  refine ⟨?_, ?_, ?_⟩
  · rw [congrFun hThu.1 "u1"]
    decide
  · rw [congrFun hMon.1 "u1"]
    rfl
  · rw [hMon.2.1]
    decide

/-- Claim C2: The monthly bucket is cleared (and the current month tag stored)
exactly when the stored monthly tag differs from the computed Pacific-civil
year-month tag and the civil day-of-month is 1; in every other case — in
particular when the tag differs but the day-of-month is not 1 — the monthly
bucket and the stored monthly tag are left unchanged. -/

theorem checkResets_monthly_day1_gate (d : PacificDate) (s : SalesState) :
    (¬(s.lastReset.monthlyTag ≠ some (monthTag d) ∧ d.day = 1) →
      (checkResets d s).monthly = s.monthly ∧
      (checkResets d s).lastReset.monthlyTag = s.lastReset.monthlyTag) ∧
    (s.lastReset.monthlyTag ≠ some (monthTag d) ∧ d.day = 1 →
      (checkResets d s).monthly = emptyBucket ∧
      (checkResets d s).lastReset.monthlyTag = some (monthTag d)) := by
  have htag : (weeklyStep (weekTag d) d.getDay (dailyStep (dayTag d) s)).lastReset.monthlyTag
      = s.lastReset.monthlyTag := by
    rw [weeklyStep_monthlyTag, dailyStep_monthlyTag]
  constructor
  · intro hnot
    unfold checkResets
    rw [monthlyStep_of_not_cond _ _ _ (by rw [htag]; exact hnot),
      weeklyStep_monthly, dailyStep_monthly, htag]
    exact ⟨rfl, rfl⟩
  · intro hc
    unfold checkResets
    exact monthlyStep_fired _ _ _ (by rw [htag]; exact hc)

/-- Witness for C2: on 2026-04-15 the tag differs (`2026-04` vs stored
`2026-03`) but the day-of-month is 15, so the monthly bucket survives; on
2026-04-01 it is cleared and the tag updated. -/

theorem checkResets_monthly_day1_gate_witness :
    (checkResets ⟨2026, 3, 15⟩ mGateState).monthly "u1" =
      some { username := "Alice", total := 200, count := 2 } ∧
    (checkResets ⟨2026, 3, 15⟩ mGateState).lastReset.monthlyTag = some "2026-03" ∧
    (checkResets ⟨2026, 3, 1⟩ mGateState).monthly "u1" = none ∧
    (checkResets ⟨2026, 3, 1⟩ mGateState).lastReset.monthlyTag = some "2026-04" := by
  have h15 := (checkResets_monthly_day1_gate ⟨2026, 3, 15⟩ mGateState).1 (by decide)
  have h1 := (checkResets_monthly_day1_gate ⟨2026, 3, 1⟩ mGateState).2 (by decide)
  refine ⟨?_, ?_, ?_, ?_⟩
  · rw [congrFun h15.1 "u1"]
    decide
  · rw [h15.2]
    decide
  · rw [congrFun h1.1 "u1"]
    rfl
  · rw [h1.2]
    decide

/-! ### Step lemmas for the v4.2 reset engine -/

@[simp] theorem dailyStepV42_allTime (cd : String) (s : SalesStateV42) :
    (dailyStepV42 cd s).allTime = s.allTime := by
  unfold dailyStepV42; split <;> rfl

@[simp] theorem weeklyStepV42_allTime (cw : Int) (s : SalesStateV42) :
    (weeklyStepV42 cw s).allTime = s.allTime := by
  unfold weeklyStepV42; split <;> rfl

@[simp] theorem monthlyStepV42_allTime (cm : Int) (s : SalesStateV42) :
    (monthlyStepV42 cm s).allTime = s.allTime := by
  unfold monthlyStepV42; split <;> rfl

@[simp] theorem weeklyStepV42_dailyTag (cw : Int) (s : SalesStateV42) :
    (weeklyStepV42 cw s).lastReset.daily = s.lastReset.daily := by
  unfold weeklyStepV42; split <;> rfl

@[simp] theorem monthlyStepV42_dailyTag (cm : Int) (s : SalesStateV42) :
    (monthlyStepV42 cm s).lastReset.daily = s.lastReset.daily := by
  unfold monthlyStepV42; split <;> rfl

@[simp] theorem monthlyStepV42_weeklyTag (cm : Int) (s : SalesStateV42) :
    (monthlyStepV42 cm s).lastReset.weekly = s.lastReset.weekly := by
  unfold monthlyStepV42; split <;> rfl

theorem dailyStepV42_post (cd : String) (s : SalesStateV42) :
    (dailyStepV42 cd s).lastReset.daily = cd := by
  unfold dailyStepV42; split
  · rfl
  · next h => exact not_not.mp h

theorem weeklyStepV42_post (cw : Int) (s : SalesStateV42) :
    (weeklyStepV42 cw s).lastReset.weekly = cw := by
  unfold weeklyStepV42; split
  · rfl
  · next h => exact not_not.mp h

theorem monthlyStepV42_post (cm : Int) (s : SalesStateV42) :
    (monthlyStepV42 cm s).lastReset.monthly = cm := by
  unfold monthlyStepV42; split
  · rfl
  · next h => exact not_not.mp h

theorem dailyStepV42_of_eq (cd : String) (s : SalesStateV42)
    (h : s.lastReset.daily = cd) : dailyStepV42 cd s = s := by
  unfold dailyStepV42
  rw [if_neg (by simpa using h)]

theorem weeklyStepV42_of_eq (cw : Int) (s : SalesStateV42)
    (h : s.lastReset.weekly = cw) : weeklyStepV42 cw s = s := by
  unfold weeklyStepV42
  rw [if_neg (by simpa using h)]

theorem monthlyStepV42_of_eq (cm : Int) (s : SalesStateV42)
    (h : s.lastReset.monthly = cm) : monthlyStepV42 cm s = s := by
  unfold monthlyStepV42
  rw [if_neg (by simpa using h)]

theorem checkResetsV42_idem (cd : String) (cw cm : Int) (s : SalesStateV42) :
    checkResetsV42 cd cw cm (checkResetsV42 cd cw cm s) = checkResetsV42 cd cw cm s := by
  have hd : (checkResetsV42 cd cw cm s).lastReset.daily = cd := by
    unfold checkResetsV42
    rw [monthlyStepV42_dailyTag, weeklyStepV42_dailyTag, dailyStepV42_post]
  have hw : (checkResetsV42 cd cw cm s).lastReset.weekly = cw := by
    unfold checkResetsV42
    rw [monthlyStepV42_weeklyTag, weeklyStepV42_post]
  have hm : (checkResetsV42 cd cw cm s).lastReset.monthly = cm := by
    unfold checkResetsV42
    rw [monthlyStepV42_post]
  conv_lhs => rw [checkResetsV42]
  rw [dailyStepV42_of_eq _ _ hd, weeklyStepV42_of_eq _ _ hw, monthlyStepV42_of_eq _ _ hm]

theorem checkResetsV42_allTime (cd : String) (cw cm : Int) (s : SalesStateV42) :
    (checkResetsV42 cd cw cm s).allTime = s.allTime := by
  unfold checkResetsV42
  rw [monthlyStepV42_allTime, weeklyStepV42_allTime, dailyStepV42_allTime]

/-! ### Step lemmas for the v5.x reset engine -/

@[simp] theorem dailyStepV51_allTime (cd : String) (s : SalesStateV51) :
    (dailyStepV51 cd s).allTime = s.allTime := by
  unfold dailyStepV51; split <;> rfl

@[simp] theorem weeklyStepV51_allTime (w : String) (cw dow : Int) (s : SalesStateV51) :
    (weeklyStepV51 w cw dow s).allTime = s.allTime := by
  unfold weeklyStepV51; split <;> rfl

@[simp] theorem monthlyStepV51_allTime (m : String) (cm : Int) (s : SalesStateV51) :
    (monthlyStepV51 m cm s).allTime = s.allTime := by
  unfold monthlyStepV51; split <;> rfl

@[simp] theorem weeklyStepV51_dailyTag (w : String) (cw dow : Int) (s : SalesStateV51) :
    (weeklyStepV51 w cw dow s).lastReset.daily = s.lastReset.daily := by
  unfold weeklyStepV51; split <;> rfl

@[simp] theorem monthlyStepV51_dailyTag (m : String) (cm : Int) (s : SalesStateV51) :
    (monthlyStepV51 m cm s).lastReset.daily = s.lastReset.daily := by
  unfold monthlyStepV51; split <;> rfl

@[simp] theorem monthlyStepV51_weeklyTag (m : String) (cm : Int) (s : SalesStateV51) :
    (monthlyStepV51 m cm s).lastReset.weeklyTag = s.lastReset.weeklyTag := by
  unfold monthlyStepV51; split <;> rfl

theorem dailyStepV51_post (cd : String) (s : SalesStateV51) :
    (dailyStepV51 cd s).lastReset.daily = cd := by
  unfold dailyStepV51; split
  · rfl
  · next h => exact not_not.mp h

theorem weeklyStepV51_not_cond (w : String) (cw dow : Int) (s : SalesStateV51)
    (hne : w ≠ "") :
    ¬(((weeklyStepV51 w cw dow s).lastReset.weeklyTag = "" ∨
       (weeklyStepV51 w cw dow s).lastReset.weeklyTag ≠ w) ∧ dow = 1) := by
  unfold weeklyStepV51; split
  · next h =>
    rintro ⟨hc | hc, -⟩
    · exact hne hc
    · exact hc rfl
  · next h => exact h

theorem monthlyStepV51_not_cond (m : String) (cm : Int) (s : SalesStateV51)
    (hne : m ≠ "") :
    ¬((monthlyStepV51 m cm s).lastReset.monthlyTag = "" ∨
      (monthlyStepV51 m cm s).lastReset.monthlyTag ≠ m) := by
  unfold monthlyStepV51; split
  · next h =>
    rintro (hc | hc)
    · exact hne hc
    · exact hc rfl
  · next h => exact h

theorem weeklyStepV51_of_not_cond (w : String) (cw dow : Int) (s : SalesStateV51)
    (h : ¬((s.lastReset.weeklyTag = "" ∨ s.lastReset.weeklyTag ≠ w) ∧ dow = 1)) :
    weeklyStepV51 w cw dow s = s := by
  unfold weeklyStepV51
  rw [if_neg h]

theorem monthlyStepV51_of_not_cond (m : String) (cm : Int) (s : SalesStateV51)
    (h : ¬(s.lastReset.monthlyTag = "" ∨ s.lastReset.monthlyTag ≠ m)) :
    monthlyStepV51 m cm s = s := by
  unfold monthlyStepV51
  rw [if_neg h]

theorem dailyStepV51_of_eq (cd : String) (s : SalesStateV51)
    (h : s.lastReset.daily = cd) : dailyStepV51 cd s = s := by
  unfold dailyStepV51
  rw [if_neg (by simpa using h)]

theorem weekResetTagV51_ne_empty (cy cw : Int) :
    toString cy ++ "-W" ++ toString cw ≠ "" := by
  intro h
  have hlen := congrArg String.length h
  rw [String.length_append, String.length_append] at hlen
  have h2 : ("-W" : String).length = 2 := rfl
  have h0 : ("" : String).length = 0 := rfl
  rw [h2, h0] at hlen
  omega

theorem monthResetTagV51_ne_empty (cy cm : Int) :
    toString cy ++ "-" ++ padStart2 cm ≠ "" := by
  intro h
  have hlen := congrArg String.length h
  rw [String.length_append, String.length_append] at hlen
  have h1 : ("-" : String).length = 1 := rfl
  have h0 : ("" : String).length = 0 := rfl
  rw [h1, h0] at hlen
  omega

theorem checkResetsV51_idem (cd : String) (cw cm cy dow : Int) (s : SalesStateV51) :
    checkResetsV51 cd cw cm cy dow (checkResetsV51 cd cw cm cy dow s) =
      checkResetsV51 cd cw cm cy dow s := by
  have hd : (checkResetsV51 cd cw cm cy dow s).lastReset.daily = cd := by
    unfold checkResetsV51
    rw [monthlyStepV51_dailyTag, weeklyStepV51_dailyTag, dailyStepV51_post]
  have hw := weeklyStepV51_not_cond (toString cy ++ "-W" ++ toString cw) cw dow
    (dailyStepV51 cd s) (weekResetTagV51_ne_empty cy cw)
  have hm := monthlyStepV51_not_cond (toString cy ++ "-" ++ padStart2 cm) cm
    (weeklyStepV51 (toString cy ++ "-W" ++ toString cw) cw dow (dailyStepV51 cd s))
    (monthResetTagV51_ne_empty cy cm)
  conv_lhs => rw [checkResetsV51]
  rw [dailyStepV51_of_eq _ _ hd]
  rw [weeklyStepV51_of_not_cond _ _ _ _ (by
    show ¬(((checkResetsV51 cd cw cm cy dow s).lastReset.weeklyTag = "" ∨ _ ≠ _) ∧ dow = 1)
    unfold checkResetsV51
    rw [monthlyStepV51_weeklyTag]
    exact hw)]
  exact monthlyStepV51_of_not_cond _ _ _ hm

theorem checkResetsV51_allTime (cd : String) (cw cm cy dow : Int) (s : SalesStateV51) :
    (checkResetsV51 cd cw cm cy dow s).allTime = s.allTime := by
  unfold checkResetsV51
  rw [monthlyStepV51_allTime, weeklyStepV51_allTime, dailyStepV51_allTime]

/-- Claim C3: `checkResets` is idempotent under an unchanged clock: a second
immediate call with the same civil instant (hence identical boundary tags)
returns the state of the first call unchanged — all buckets, all snapshot
slots, and all stored tags — in the canonical v4.7 engine, the v4.2 engine
(with its snapshot slots), and the v5.x engine (with its snapshot slots). -/

theorem checkResets_idempotent_same_clock :
    (∀ (d : PacificDate) (s : SalesState),
      checkResets d (checkResets d s) = checkResets d s) ∧
    (∀ (cd : String) (cw cm : Int) (s : SalesStateV42),
      checkResetsV42 cd cw cm (checkResetsV42 cd cw cm s) = checkResetsV42 cd cw cm s) ∧
    (∀ (cd : String) (cw cm cy dow : Int) (s : SalesStateV51),
      checkResetsV51 cd cw cm cy dow (checkResetsV51 cd cw cm cy dow s) =
        checkResetsV51 cd cw cm cy dow s) :=
  ⟨checkResets_idem, checkResetsV42_idem, checkResetsV51_idem⟩

/-- Claim C9: The `allTime` bucket is never reset: `checkResets` returns it
exactly unchanged for every state and every instant, in all three embedded
variants, regardless of which daily/weekly/monthly transitions fire. -/

theorem checkResets_never_touches_allTime :
    (∀ (d : PacificDate) (s : SalesState),
      (checkResets d s).allTime = s.allTime) ∧
    (∀ (cd : String) (cw cm : Int) (s : SalesStateV42),
      (checkResetsV42 cd cw cm s).allTime = s.allTime) ∧
    (∀ (cd : String) (cw cm cy dow : Int) (s : SalesStateV51),
      (checkResetsV51 cd cw cm cy dow s).allTime = s.allTime) :=
  ⟨checkResets_allTime, checkResetsV42_allTime, checkResetsV51_allTime⟩

/-! ### Aggregation lemmas -/

theorem bump_same_user (userId username : String) (amount : ℚ) (b : Bucket)
    (t : ℚ) (c : ℕ) (h : b userId = some { username := username, total := t, count := c }) :
    bump userId username amount b userId =
      some { username := username, total := t + amount, count := c + 1 } := by
  unfold bump
  rw [if_pos rfl, h]
  simp

theorem bump_fresh (userId username : String) (amount : ℚ) (b : Bucket)
    (h : b userId = none) :
    bump userId username amount b userId =
      some { username := username, total := amount, count := 1 } := by
  unfold bump
  rw [if_pos rfl, h]
  simp

/-- Folding `bump` over a list of amounts starting from a record that already
carries the caller's username adds the list sum to `total` and the list
length to `count`. -/

theorem bump_foldl (userId username : String) (amts : List ℚ) (b : Bucket)
    (t : ℚ) (c : ℕ) (h : b userId = some { username := username, total := t, count := c }) :
    (amts.foldl (fun bk a => bump userId username a bk) b) userId =
      some { username := username, total := t + amts.sum, count := c + amts.length } := by
  induction amts generalizing b t c with
  | nil => simpa using h
  | cons a rest ih =>
    rw [List.foldl_cons]
    have hstep := bump_same_user userId username a b t c h
    have := ih (bump userId username a b) (t + a) (c + 1) hstep
    rw [this]
    rw [List.sum_cons, List.length_cons]
    congr 2
    · ring
    · omega

/-- Folding `bump` over a nonempty list of amounts starting from an absent
record creates it with the caller's username, the sum and the length. -/

theorem bump_foldl_fresh (userId username : String) (amts : List ℚ) (b : Bucket)
    (h : b userId = none) (hne : amts ≠ []) :
    (amts.foldl (fun bk a => bump userId username a bk) b) userId =
      some { username := username, total := amts.sum, count := amts.length } := by
  cases amts with
  | nil => exact absurd rfl hne
  | cons a rest =>
    rw [List.foldl_cons]
    have hstep := bump_fresh userId username a b h
    have := bump_foldl userId username rest (bump userId username a b) a 1 hstep
    rw [this, List.sum_cons, List.length_cons]
    congr 2
    omega

theorem foldl_addSale_daily (userId username : String) (amts : List ℚ) (s : SalesState) :
    (amts.foldl (fun st a => addSale userId username a st) s).daily =
      amts.foldl (fun bk a => bump userId username a bk) s.daily := by
  induction amts generalizing s with
  | nil => rfl
  | cons a rest ih => rw [List.foldl_cons, List.foldl_cons, ih]; rfl

theorem foldl_addSale_weekly (userId username : String) (amts : List ℚ) (s : SalesState) :
    (amts.foldl (fun st a => addSale userId username a st) s).weekly =
      amts.foldl (fun bk a => bump userId username a bk) s.weekly := by
  induction amts generalizing s with
  | nil => rfl
  | cons a rest ih => rw [List.foldl_cons, List.foldl_cons, ih]; rfl

theorem foldl_addSale_monthly (userId username : String) (amts : List ℚ) (s : SalesState) :
    (amts.foldl (fun st a => addSale userId username a st) s).monthly =
      amts.foldl (fun bk a => bump userId username a bk) s.monthly := by
  induction amts generalizing s with
  | nil => rfl
  | cons a rest ih => rw [List.foldl_cons, List.foldl_cons, ih]; rfl

theorem foldl_addSale_allTime (userId username : String) (amts : List ℚ) (s : SalesState) :
    (amts.foldl (fun st a => addSale userId username a st) s).allTime =
      amts.foldl (fun bk a => bump userId username a bk) s.allTime := by
  induction amts generalizing s with
  | nil => rfl
  | cons a rest ih => rw [List.foldl_cons, List.foldl_cons, ih]; rfl

/-- Claim C4: After `N` calls to `addSale` for one agent within one unreset
period (starting from a state with no record for that agent), each of the
daily, weekly, monthly and allTime buckets stores
`{username, total = sum of the N amounts, count = N}`, and a subsequent
`getUserSalesStats` read returns exactly those four records. -/

theorem addSale_getUserSalesStats_roundtrip (userId username : String)
    (amts : List ℚ) (s : SalesState)
    (h : s.daily userId = none ∧ s.weekly userId = none ∧
         s.monthly userId = none ∧ s.allTime userId = none) :
    ((getUserSalesStats userId username
        (amts.foldl (fun st a => addSale userId username a st) s)).1 =
      ⟨{ username := username, total := amts.sum, count := amts.length },
       { username := username, total := amts.sum, count := amts.length },
       { username := username, total := amts.sum, count := amts.length },
       { username := username, total := amts.sum, count := amts.length }⟩) ∧
    (amts ≠ [] →
      (amts.foldl (fun st a => addSale userId username a st) s).daily userId =
        some { username := username, total := amts.sum, count := amts.length } ∧
      (amts.foldl (fun st a => addSale userId username a st) s).weekly userId =
        some { username := username, total := amts.sum, count := amts.length } ∧
      (amts.foldl (fun st a => addSale userId username a st) s).monthly userId =
        some { username := username, total := amts.sum, count := amts.length } ∧
      (amts.foldl (fun st a => addSale userId username a st) s).allTime userId =
        some { username := username, total := amts.sum, count := amts.length }) := by
  rcases h with ⟨h1, h2, h3, h4⟩
  by_cases hne : amts = []
  · subst hne
    constructor
    · simp [getUserSalesStats, pull, h1, h2, h3, h4]
    · intro hc
      exact absurd rfl hc
  · have hd := bump_foldl_fresh userId username amts s.daily h1 hne
    have hw := bump_foldl_fresh userId username amts s.weekly h2 hne
    have hm := bump_foldl_fresh userId username amts s.monthly h3 hne
    have ha := bump_foldl_fresh userId username amts s.allTime h4 hne
    rw [← foldl_addSale_daily] at hd
    rw [← foldl_addSale_weekly] at hw
    rw [← foldl_addSale_monthly] at hm
    rw [← foldl_addSale_allTime] at ha
    exact ⟨by simp [getUserSalesStats, pull, hd, hw, hm, ha],
      fun _ => ⟨hd, hw, hm, ha⟩⟩

/-- Witness for C4: two sales of 100 and 250 for agent `u1` starting from the
empty state give total 350 and count 2 in every bucket, and the stats read
returns them. -/

theorem addSale_getUserSalesStats_roundtrip_witness :
    (getUserSalesStats "u1" "Alice"
      ([100, 250].foldl (fun st a => addSale "u1" "Alice" a st) initialState)).1 =
      ⟨{ username := "Alice", total := 350, count := 2 },
       { username := "Alice", total := 350, count := 2 },
       { username := "Alice", total := 350, count := 2 },
       { username := "Alice", total := 350, count := 2 }⟩ ∧
    ([100, 250].foldl (fun st a => addSale "u1" "Alice" a st) initialState).daily "u1" =
      some { username := "Alice", total := 350, count := 2 } := by
  have hrt := addSale_getUserSalesStats_roundtrip "u1" "Alice" [100, 250] initialState
    ⟨rfl, rfl, rfl, rfl⟩
  constructor
  · rw [hrt.1]
    norm_num [List.sum_cons, List.sum_nil]
  · rw [(hrt.2 (by decide)).1]
    norm_num [List.sum_cons, List.sum_nil]

/-- Claim C5, divergence evaluation: On the spec's own example
`"378$ HIS FORESTERS 378$ HERS FORESTERS"` — two amount positions with equal
values — the v4.7 parser returns a single entry, because its de-dup pass keys
on `amount.toFixed(2)`, i.e. on value; the v5.x parser returns one entry per
match span. -/

theorem parseV47_value_dedup_collapses_equal_amounts :
    parseMultipleSalesV47 "378$ HIS FORESTERS 378$ HERS FORESTERS" =
      [{ amount := (378, 0), type := "AP" }] ∧
    (parseMultipleSales "378$ HIS FORESTERS 378$ HERS FORESTERS").map SaleEntry.amount =
      [some (378, 0), some (378, 0)] := by
  constructor <;> decide

/-- Claim C6: Both accepted surface forms of a well-formed single-amount
message produce exactly one entry with amount 624 and the category derived
from the text after the amount ("Americo Iul" after title casing); thousands
separators are removed and a two-digit fraction honoured. -/

theorem parse_single_amount_both_forms :
    parseMultipleSales "$624 Americo IUL" =
      [{ amount := some (624, 0), policyType := "Americo Iul" }] ∧
    parseMultipleSales "624$ Americo IUL" =
      [{ amount := some (624, 0), policyType := "Americo Iul" }] ∧
    parseMultipleSales "$1,234.56 Americo IUL" =
      [{ amount := some (123456, 2), policyType := "Americo Iul" }] ∧
    amountVal (624, 0) = 624 ∧ amountVal (123456, 2) = 1234.56 := by
  refine ⟨by decide, by decide, by decide, ?_, ?_⟩ <;> norm_num [amountVal]

/-- Claim C7 counterexample: the canonical parser emits an entry whose parsed
numeric value is zero instead of silently dropping it. -/

theorem parse_emits_zero_amount_entry :
    parseMultipleSales "$0 Americo IUL" =
      [{ amount := some (0, 0), policyType := "Americo Iul" }] ∧
    parseMultipleSales "$0 Americo IUL" ≠ [] ∧
    amountVal (0, 0) = 0 := by
  refine ⟨by decide, by decide, by norm_num [amountVal]⟩

theorem saleV47OfGroup_pos {g : List Char} {e : SaleV47}
    (h : saleV47OfGroup g = some e) : 0 < e.amount.1 := by
  revert h
  unfold saleV47OfGroup
  rcases parseFloatDec (g.filter (fun c => c != ',')) with _ | p
  · intro h
    exact absurd h (by simp)
  · intro h
    change (if 0 < p.1 then some { amount := p, type := "AP" } else none) = some e at h
    split_ifs at h with h0
    cases h
    exact h0

theorem mem_of_mem_dedupByKey {seen : List ℕ} {l : List SaleV47} {e : SaleV47}
    (h : e ∈ dedupByKey seen l) : e ∈ l := by
  induction l generalizing seen with
  | nil => simp [dedupByKey] at h
  | cons s rest ih =>
    unfold dedupByKey at h
    split at h
    · exact List.mem_cons_of_mem _ (ih h)
    · rcases List.mem_cons.mp h with h1 | h2
      · exact h1 ▸ List.mem_cons_self _ _
      · exact List.mem_cons_of_mem _ (ih h2)

theorem parseV47_amounts_positive (text : String) (e : SaleV47)
    (h : e ∈ parseMultipleSalesV47 text) : 0 < amountVal e.amount := by
  have hm : 0 < e.amount.1 := by
    simp only [parseMultipleSalesV47] at h
    split at h
    · rcases List.mem_filterMap.mp (mem_of_mem_dedupByKey h) with ⟨g, -, hg⟩
      exact saleV47OfGroup_pos hg
    · rcases List.mem_filterMap.mp h with ⟨g, -, hg⟩
      exact saleV47OfGroup_pos hg
  have h1 : (0 : ℚ) < e.amount.1 := by exact_mod_cast hm
  exact div_pos h1 (by positivity)

theorem parseMultipleSales_eq_nil_iff (message : String) :
    parseMultipleSales message = [] ↔
      findAmtMatches (normalizeMsg message).length (normalizeMsg message) 0 = [] := by
  unfold parseMultipleSales
  cases hms : findAmtMatches (normalizeMsg message).length (normalizeMsg message) 0 with
  | nil => simp [hms]
  | cons m rest => simp [hms, buildEntries]

/-- Claim C7, amended: The parser is a total Lean function (it cannot raise);
a message in which the amount scanner finds no currency amount yields the
empty sequence; the v4.7 parser's entries all have strictly positive numeric
value; and for the canonical v5.x parser — which does emit zero/NaN entries —
the message handler's `sale.amount > 0` guard drops them before any bucket
is touched. -/

theorem parse_empty_on_no_amount_and_positive_filter :
    (∀ message : String,
      parseMultipleSales message = [] ↔
        findAmtMatches (normalizeMsg message).length (normalizeMsg message) 0 = []) ∧
    (∀ (text : String) (e : SaleV47),
      e ∈ parseMultipleSalesV47 text → 0 < amountVal e.amount) ∧
    (∀ (userId username : String) (s : SalesStateV51) (e : SaleEntry),
      (∀ p, e.amount = some p → ¬(0 < amountVal p)) →
      processSales userId username [e] s = s) := by
  refine ⟨parseMultipleSales_eq_nil_iff, parseV47_amounts_positive, ?_⟩
  intro userId username s e he
  unfold processSales
  rw [List.foldl_cons, List.foldl_nil]
  cases ha : e.amount with
  | none => rfl
  | some p =>
    change (if 0 < amountVal p then addSaleV51 userId username (amountVal p) s else s) = s
    rw [if_neg (he p ha)]

/-- Witness for C7: a positive v4.7 entry really is positive, and a concrete
zero-amount entry leaves a concrete v5.x state untouched. -/

theorem parse_empty_on_no_amount_and_positive_filter_witness :
    0 < amountVal (624, 0) ∧
    processSales "u1" "Alice"
      [{ amount := some (0, 0), policyType := "General Policy" }] initialStateV51 =
      initialStateV51 ∧
    parseMultipleSales "no sale here" = [] := by
  refine ⟨?_, ?_, ?_⟩
  · exact parse_empty_on_no_amount_and_positive_filter.2.1 "$624 Americo IUL"
      { amount := (624, 0), type := "AP" } (by decide)
  · exact parse_empty_on_no_amount_and_positive_filter.2.2 "u1" "Alice" initialStateV51 _
      (fun p hp => by
        simp only [Option.some.injEq] at hp
        subst hp
        norm_num [amountVal])
  · exact (parse_empty_on_no_amount_and_positive_filter.1 "no sale here").mpr (by decide)

/-- Claim C8 counterexample: a call whose display name is the empty string —
different from the stored `"Alice"` — does not update the stored name,
because the source guards the update with JS truthiness
(`if(username && username!==cur.username)`). -/

theorem addSale_empty_name_keeps_old_name :
    (addSale "u1" "" 50 c8State).daily "u1" =
      some { username := "Alice", total := 150, count := 2 } ∧
    ("Alice" : String) ≠ "" := by
  constructor
  · show some (Rec.mk "Alice" (0 + 100 + 50) 2) = some (Rec.mk "Alice" 150 2)
    norm_num
  · decide

theorem bump_username_updated (userId username : String) (amount : ℚ) (b : Bucket)
    (h : username ≠ "") :
    (bump userId username amount b userId).map Rec.username = some username := by
  unfold bump
  rw [if_pos rfl]
  cases hb : b userId with
  | none => simp
  | some r =>
    simp only [Option.getD_some]
    split_ifs with hc
    · simp
    · push_neg at hc
      simp [(hc h).symm]

/-- Claim C8, amended: For every call to `addSale` with a *non-empty* display
name, the stored display name in all four mutated bucket records equals the
name passed to that call — the last-seen name, not the creation-time name;
an empty display name leaves the stored name unchanged. -/

theorem addSale_updates_display_name (userId username : String) (amount : ℚ)
    (s : SalesState) (h : username ≠ "") :
    ((addSale userId username amount s).daily userId).map Rec.username = some username ∧
    ((addSale userId username amount s).weekly userId).map Rec.username = some username ∧
    ((addSale userId username amount s).monthly userId).map Rec.username = some username ∧
    ((addSale userId username amount s).allTime userId).map Rec.username = some username :=
  ⟨bump_username_updated userId username amount s.daily h,
   bump_username_updated userId username amount s.weekly h,
   bump_username_updated userId username amount s.monthly h,
   bump_username_updated userId username amount s.allTime h⟩

/-- Witness for C8 (amended): a sale under the new non-empty name `Bob`
renames the record previously created as `Alice`. -/

theorem addSale_updates_display_name_witness :
    ((addSale "u1" "Bob" 5 c8State).daily "u1").map Rec.username = some "Bob" ∧
    ("Bob" : String) ≠ "Alice" :=
  ⟨(addSale_updates_display_name "u1" "Bob" 5 c8State (by decide)).1, by decide⟩

theorem bumpAllTimeV42_reduced (userId username : String) (amount : ℚ) (b : BucketV42)
    (h : ∀ u r, b u = some r → r.policies = none ∧ r.policyDetails = none)
    (u : String) (r : RecV42)
    (hr : bumpAllTimeV42 userId username amount b u = some r) :
    r.policies = none ∧ r.policyDetails = none := by
  simp only [bumpAllTimeV42] at hr
  by_cases hu : u = userId
  · rw [if_pos hu] at hr
    cases hb : b userId with
    | none =>
      rw [hb, Option.getD_none] at hr
      rw [Option.some.injEq] at hr
      subst hr
      exact ⟨rfl, rfl⟩
    | some r0 =>
      rw [hb, Option.getD_some] at hr
      rw [Option.some.injEq] at hr
      subst hr
      exact h userId r0 hb
  · rw [if_neg hu] at hr
    exact h u r hr

theorem bumpDetailedV42_appends (userId username : String) (amount : ℚ)
    (policyType ts : String) (b : BucketV42) :
    ∃ r, bumpDetailedV42 userId username amount policyType ts b userId = some r ∧
      (∃ l, r.policyDetails = some (l ++
        [{ amount := amount, type := policyType, date := ts }])) ∧
      (∃ f, r.policies = some f ∧ 0 < f policyType) := by
  simp only [bumpDetailedV42, if_true]
  refine ⟨_, rfl, ⟨_, rfl⟩, ⟨_, rfl, ?_⟩⟩
  rw [if_pos rfl]
  omega

/-- Claim C10: `addSale` (v4.2) appends the per-sale detail entry and bumps the
per-category count only in the daily, weekly and monthly records; the
`allTime` record it touches carries only `username`, `total` and `count` —
starting from a state whose `allTime` bucket is in reduced shape, the bucket
stays in reduced shape, and the agent's updated `allTime` record has neither
a category map nor a detail log. -/

theorem addSaleV42_allTime_stays_reduced (currentDay : String) (currentWeek currentMonth : Int)
    (userId username : String) (amount : ℚ) (policyType ts : String)
    (s : SalesStateV42) (h : AllTimeReducedV42 s) :
    AllTimeReducedV42 (addSaleV42 currentDay currentWeek currentMonth
      userId username amount policyType ts s) ∧
    (∃ r, (addSaleV42 currentDay currentWeek currentMonth
        userId username amount policyType ts s).daily userId = some r ∧
      (∃ l, r.policyDetails = some (l ++
        [{ amount := amount, type := policyType, date := ts }])) ∧
      (∃ f, r.policies = some f ∧ 0 < f policyType)) ∧
    (∃ r, (addSaleV42 currentDay currentWeek currentMonth
        userId username amount policyType ts s).weekly userId = some r ∧
      (∃ l, r.policyDetails = some (l ++
        [{ amount := amount, type := policyType, date := ts }]))) ∧
    (∃ r, (addSaleV42 currentDay currentWeek currentMonth
        userId username amount policyType ts s).monthly userId = some r ∧
      (∃ l, r.policyDetails = some (l ++
        [{ amount := amount, type := policyType, date := ts }]))) ∧
    (∃ r, (addSaleV42 currentDay currentWeek currentMonth
        userId username amount policyType ts s).allTime userId = some r ∧
      r.policies = none ∧ r.policyDetails = none) := by
  have hred : ∀ u r, (checkResetsV42 currentDay currentWeek currentMonth s).allTime u = some r →
      r.policies = none ∧ r.policyDetails = none := by
    rw [checkResetsV42_allTime]
    exact h
  have hF : AllTimeReducedV42 (addSaleV42 currentDay currentWeek currentMonth
      userId username amount policyType ts s) := fun u r hr =>
    bumpAllTimeV42_reduced userId username amount _ hred u r hr
  have hex : ∃ r, (addSaleV42 currentDay currentWeek currentMonth
      userId username amount policyType ts s).allTime userId = some r := by
    show ∃ r, bumpAllTimeV42 userId username amount
      (checkResetsV42 currentDay currentWeek currentMonth s).allTime userId = some r
    simp only [bumpAllTimeV42, if_true]
    exact ⟨_, rfl⟩
  obtain ⟨ra, hra⟩ := hex
  obtain ⟨rd, hrd, hl, hf⟩ := bumpDetailedV42_appends userId username amount policyType ts
    (checkResetsV42 currentDay currentWeek currentMonth s).daily
  obtain ⟨rw0, hrw, hlw, -⟩ := bumpDetailedV42_appends userId username amount policyType ts
    (checkResetsV42 currentDay currentWeek currentMonth s).weekly
  obtain ⟨rm, hrm, hlm, -⟩ := bumpDetailedV42_appends userId username amount policyType ts
    (checkResetsV42 currentDay currentWeek currentMonth s).monthly
  exact ⟨hF, ⟨rd, hrd, hl, hf⟩, ⟨rw0, hrw, hlw⟩, ⟨rm, hrm, hlm⟩,
    ⟨ra, hra, (hF userId ra hra).1, (hF userId ra hra).2⟩⟩

/-- Witness for C10: after one concrete sale, the `allTime` record has no
category map and no detail log, while the daily record carries the appended
detail entry. -/

theorem addSaleV42_allTime_stays_reduced_witness :
    ((addSaleV42 "Thu Oct 01 2026" 40 9 "u1" "Alice" 100 "Iul" "t0"
        initialStateV42).allTime "u1").map RecV42.policies = some none ∧
    ((addSaleV42 "Thu Oct 01 2026" 40 9 "u1" "Alice" 100 "Iul" "t0"
        initialStateV42).allTime "u1").map RecV42.policyDetails = some none ∧
    ((addSaleV42 "Thu Oct 01 2026" 40 9 "u1" "Alice" 100 "Iul" "t0"
        initialStateV42).daily "u1").map RecV42.policyDetails =
      some (some [{ amount := 100, type := "Iul", date := "t0" }]) := by
  obtain ⟨-, -, -, -, ra, hra, hp, hd⟩ :=
    addSaleV42_allTime_stays_reduced "Thu Oct 01 2026" 40 9 "u1" "Alice" 100 "Iul" "t0"
      initialStateV42 (fun u r hr => nomatch hr)
  refine ⟨?_, ?_, rfl⟩
  · rw [hra]
    simp [hp]
  · rw [hra]
    simp [hd]

end BigPolicyBot
